import Mathlib

/-!
Verification of the `ynabifier` DKB-CSV-to-YNAB converter.

This file gives a shallow embedding of `ynabifier.py` (character-level string
processing over `List Char`, amounts as `ℚ`, fallible operations as `Option` /
`Except`) and proves the specification claims about it.  File I/O and the CSV
`DictReader` are treated as the external boundary: the pipeline is modelled
from the parsed header (`Option (List String)`) and the parsed data rows
(association lists from column name to raw string value), and the output file
is modelled as the list of rows written to it, in order.
-/

namespace Ynabifier

/-! ## Character helpers (Python whitespace and digits) -/

/-- Python `Py_UNICODE_ISSPACE`: the whitespace predicate used both by
`str.strip` / `str.split` and by the regex class `\s` on `str` patterns. -/
def isSpaceC (c : Char) : Bool :=
  let n := c.toNat
  (9 ≤ n && n ≤ 13) || (28 ≤ n && n ≤ 31) || n = 32 || n = 133 || n = 160 ||
    n = 5760 || (8192 ≤ n && n ≤ 8202) || n = 8232 || n = 8233 || n = 8239 ||
    n = 8287 || n = 12288

/-- The decimal digit character for `k < 10`. -/
def digitChar (k : ℕ) : Char := Char.ofNat (48 + k)

/-- Numeric value of a string of decimal digit characters (most significant
first), as computed by positional accumulation. -/
def digitsVal (l : List Char) : ℕ :=
  l.foldl (fun a c => 10 * a + (c.toNat - 48)) 0

/-- Zero-padded two-digit decimal rendering (`%02d` for values below 100). -/
def pad2C (n : ℕ) : List Char := [digitChar (n / 10 % 10), digitChar (n % 10)]

/-- Zero-padded four-digit decimal rendering (`%04d` for values below 10000). -/
def pad4C (n : ℕ) : List Char :=
  [digitChar (n / 1000 % 10), digitChar (n / 100 % 10),
   digitChar (n / 10 % 10), digitChar (n % 10)]

/-- Decimal digits of a natural number, with explicit fuel (the fuel is always
sufficient since `n / 10 < n` for positive `n`). -/
def natDigitsAux : ℕ → ℕ → List Char
  | 0, _ => []
  | fuel + 1, n => if n < 10 then [digitChar n] else natDigitsAux fuel (n / 10) ++ [digitChar (n % 10)]

/-- Decimal digits of a natural number, most significant first. -/
def natDigits (n : ℕ) : List Char := natDigitsAux (n + 1) n

/-- Python `str.strip()` on a character list: drop leading and trailing
whitespace. -/
def stripC (l : List Char) : List Char :=
  ((l.dropWhile isSpaceC).reverse.dropWhile isSpaceC).reverse

/-- Python `str.strip()` on strings. -/
def stripStr (s : String) : String := ⟨stripC s.data⟩

/-- Does `p` occur as a leading segment of `l`? -/
def isPrefixB : List Char → List Char → Bool
  | [], _ => true
  | _ :: _, [] => false
  | a :: as, b :: bs => a == b && isPrefixB as bs

/-- Does `p` occur as a contiguous segment anywhere in `l` (Python `in`)? -/
def containsB (p : List Char) : List Char → Bool
  | [] => isPrefixB p []
  | l@(_ :: rest) => isPrefixB p l || containsB p rest

/-- Python `str.split()` with no separator: split on runs of whitespace,
discarding empty pieces.  `acc` holds the characters of the current word in
reverse. -/
def splitWordsAux : List Char → List Char → List (List Char)
  | [], acc => if acc.isEmpty then [] else [acc.reverse]
  | c :: rest, acc =>
    if isSpaceC c then
      if acc.isEmpty then splitWordsAux rest [] else acc.reverse :: splitWordsAux rest []
    else splitWordsAux rest (c :: acc)

/-- `normalize_text`: `" ".join(value.split())` — trim and collapse internal
whitespace. -/
def normalize_text (value : String) : String :=
  ⟨List.intercalate [' '] (splitWordsAux value.data [])⟩

/-! ## `convert_german_to_american` and Python `float` parsing -/

/-- Value of an unsigned decimal literal over digits with at most one point:
`float` accepts `"12"`, `"12."`, `".5"`, `"12.5"` but not `""`, `"."`,
`"1.2.3"`, or anything containing other characters. -/
def parseUnsignedFloat (l : List Char) : Option ℚ :=
  let ip := l.takeWhile Char.isDigit
  match l.dropWhile Char.isDigit with
  | [] => if ip.isEmpty then none else some (mkRat (digitsVal ip) 1)
  | '.' :: frac =>
    if frac.all Char.isDigit && (!ip.isEmpty || !frac.isEmpty) then
      some (mkRat (digitsVal ip * 10 ^ frac.length + digitsVal frac) (10 ^ frac.length))
    else none
  | _ => none

/-- Python `float(s)` restricted to the character repertoire reachable here
(digits, `.`, `-`, `+`); exact decimal value as a rational. -/
def parseFloat (s : String) : Option ℚ :=
  match s.data with
  | [] => none
  | c :: t =>
    if c = '-' then (parseUnsignedFloat t).map (fun q => -q)
    else if c = '+' then parseUnsignedFloat t
    else parseUnsignedFloat (c :: t)

/-- The character class kept by `re.sub(r"[^\d,.\-]", "", ...)`. -/
def keepChar (c : Char) : Bool := c.isDigit || c == ',' || c == '.' || c == '-'

/-- The cleaned string computed inside `convert_german_to_american`:
keep `[\d,.\-]`, delete all periods, then turn commas into periods. -/
def codeCleaned (s : String) : String :=
  ⟨((s.data.filter keepChar).filter (fun c => c ≠ '.')).map
    (fun c => if c = ',' then '.' else c)⟩

/-- `convert_german_to_american`: clean the string, then `float` it; `None` on
parse failure. -/
def convert_german_to_american (number_string : String) : Option ℚ :=
  parseFloat (codeCleaned number_string)

/-- `parse_amount` is an alias for `convert_german_to_american`. -/
def parse_amount (amount : String) : Option ℚ := convert_german_to_american amount

/-! ## `convert_date_format` and `strptime` -/

/-- Split a character list at every `'.'` (the literal dots of the formats
`%d.%m.%y` / `%d.%m.%Y`; the other directives match no dot, so a full regex
match is exactly a dot-split into three well-formed fields). -/
def splitDots : List Char → List (List Char)
  | [] => [[]]
  | c :: rest =>
    if c = '.' then [] :: splitDots rest
    else
      match splitDots rest with
      | [] => [[c]]
      | w :: ws => (c :: w) :: ws

/-- The language of the `strptime` directive `%d`:
`(3[0-1]|[1-2]\d|0[1-9]|[1-9])`, i.e. one or two digits with value 1–31. -/
def dayTok (l : List Char) : Bool :=
  l.all Char.isDigit && (decide (l.length = 1) || decide (l.length = 2)) &&
    decide (1 ≤ digitsVal l) && decide (digitsVal l ≤ 31)

/-- The language of the `strptime` directive `%m`: `(1[0-2]|0[1-9]|[1-9])`,
i.e. one or two digits with value 1–12. -/
def monthTok (l : List Char) : Bool :=
  l.all Char.isDigit && (decide (l.length = 1) || decide (l.length = 2)) &&
    decide (1 ≤ digitsVal l) && decide (digitsVal l ≤ 12)

/-- A parsed calendar date as carried by a `datetime` object. -/
structure DateT where
  year : ℕ
  month : ℕ
  day : ℕ
deriving DecidableEq

/-- Gregorian leap-year rule used by `datetime`. -/
def isLeap (y : ℕ) : Bool :=
  decide (y % 4 = 0) && (decide (y % 100 ≠ 0) || decide (y % 400 = 0))

/-- Number of days of month `m` in year `y` (`datetime` validation). -/
def daysInMonth (y m : ℕ) : ℕ :=
  if m = 2 then (if isLeap y then 29 else 28)
  else if m = 4 ∨ m = 6 ∨ m = 9 ∨ m = 11 then 30
  else 31

/-- `datetime.strptime(s, "%d.%m.%y")`: day and month tokens and an exactly
two-digit year, separated by literal dots; `%y` maps 00–68 to 2000–2068 and
69–99 to 1969–1999; `datetime` then validates the day against the month. -/
def strptime2 (l : List Char) : Option DateT :=
  match splitDots l with
  | [a, b, c] =>
    if dayTok a && monthTok b && decide (c.length = 2) && c.all Char.isDigit then
      let d := digitsVal a
      let m := digitsVal b
      let yy := digitsVal c
      let y := if yy ≤ 68 then 2000 + yy else 1900 + yy
      if d ≤ daysInMonth y m then some ⟨y, m, d⟩ else none
    else none
  | _ => none

/-- `datetime.strptime(s, "%d.%m.%Y")`: like `strptime2` but with an exactly
four-digit year taken at face value; year 0 is rejected by `datetime`
(`MINYEAR = 1`). -/
def strptime4 (l : List Char) : Option DateT :=
  match splitDots l with
  | [a, b, c] =>
    if dayTok a && monthTok b && decide (c.length = 4) && c.all Char.isDigit then
      let d := digitsVal a
      let m := digitsVal b
      let y := digitsVal c
      if 1 ≤ y ∧ d ≤ daysInMonth y m then some ⟨y, m, d⟩ else none
    else none
  | _ => none

/-- `date_obj.strftime("%d/%m/%y")`: zero-padded day and month and the year
modulo 100, slash-separated. -/
def strftimeSlash (dt : DateT) : List Char :=
  pad2C dt.day ++ ('/' :: (pad2C dt.month ++ ('/' :: pad2C (dt.year % 100))))

/-- `convert_date_format`: try `%d.%m.%y` then `%d.%m.%Y`; on the first hit
reformat as `DD/MM/YY`; if both fail return the input unchanged. -/
def convert_date_format (date_str : String) : String :=
  match strptime2 date_str.data with
  | some dt => ⟨strftimeSlash dt⟩
  | none =>
    match strptime4 date_str.data with
    | some dt => ⟨strftimeSlash dt⟩
    | none => date_str

/-! ## PayPal payee rewriting: `re.search(r"Ihr Einkauf bei\s+(.+?)(?:,|$)", memo)` -/

/-- The literal part of the store-extraction pattern. -/
def einkaufMarker : List Char := "Ihr Einkauf bei".data

/-- `PAYPAL_PREFIX` from the source. -/
def paypalPrefixVal : String := "PayPal Europe S.a.r.l."

/-- Can `(?:,|$)` match here?  `$` (without `re.MULTILINE`) matches at the end
of the string or just before a terminating newline. -/
def commaOrEnd : List Char → Bool
  | [] => true
  | [c] => c == ',' || c == '\n'
  | c :: _ => c == ','

/-- The lazy group `(.+?)(?:,|$)`: `acc` holds the (reversed) characters taken
so far (at least one); extend one character at a time, checking the
terminator first (lazy matching), and never across a newline (`.`). -/
def lazyGroup : List Char → List Char → Option (List Char)
  | acc, rest =>
    if commaOrEnd rest then some acc.reverse
    else
      match rest with
      | [] => none
      | c :: r2 => if c = '\n' then none else lazyGroup (c :: acc) r2

/-- `(.+?)(?:,|$)` at `t`: the group takes at least one non-newline
character. -/
def lazyGroupStart (t : List Char) : Option (List Char) :=
  match t with
  | [] => none
  | c :: rest => if c = '\n' then none else lazyGroup [c] rest

/-- `\s+(.+?)(?:,|$)` at `t`: `\s+` is greedy, so try the whole leading
whitespace run first and backtrack to shorter (nonempty) runs. -/
def wsThenGroup : ℕ → List Char → Option (List Char)
  | 0, _ => none
  | k + 1, t =>
    match lazyGroupStart (t.drop (k + 1)) with
    | some g => some g
    | none => wsThenGroup k t

/-- One attempt of the full pattern at the current position: the literal
marker, then `\s+(.+?)(?:,|$)`. -/
def matchMarkerAt (l : List Char) : Option (List Char) :=
  if isPrefixB einkaufMarker l then
    let t := l.drop einkaufMarker.length
    wsThenGroup (t.takeWhile isSpaceC).length t
  else none

/-- `re.search`: try the pattern at every position, left to right, and return
the first captured group. -/
def paypalSearch : List Char → Option (List Char)
  | [] => none
  | l@(_ :: rest) =>
    match matchMarkerAt l with
    | some g => some g
    | none => paypalSearch rest

/-- `extract_paypal_store`: empty string for an empty memo or when the search
fails; otherwise `match.group(1).strip()`. -/
def extract_paypal_store (memo : String) : String :=
  if memo = "" then ""
  else
    match paypalSearch memo.data with
    | some g => ⟨stripC g⟩
    | none => ""

/-- `normalize_payee`: if the stripped payee starts with `PAYPAL_PREFIX` and a
store name can be extracted from the memo, return the store name, else the
payee unchanged. -/
def normalize_payee (payee memo : String) : String :=
  if isPrefixB paypalPrefixVal.data (stripC payee.data) then
    let store := extract_paypal_store memo
    if store ≠ "" then store else payee
  else payee

/-! ## Row builder -/

/-- A YNAB output row: the fixed-shape record written by `csv.DictWriter`. -/
structure OutputRow where
  Date : String
  Payee : String
  Category : String
  Memo : String
  Outflow : String
  Inflow : String
deriving DecidableEq

/-- `YNAB_FIELDNAMES`, the output header and field order. -/
def YNAB_FIELDNAMES : List String := ["Date", "Payee", "Category", "Memo", "Outflow", "Inflow"]

/-- Round-half-even of `q * 100` to an integer, computed on the numerator and
denominator: this is the rounding performed by Python's `f"{x:.2f}"`. -/
def roundHalfEven100 (q : ℚ) : ℤ :=
  let n := q.num * 100
  let d := (q.den : ℤ)
  let fl := Int.fdiv n d
  let r := n - fl * d
  if 2 * r < d then fl
  else if d < 2 * r then fl + 1
  else if fl % 2 = 0 then fl else fl + 1

/-- `format_amount`: `f"{amount:.2f}"` — two fraction digits, sign taken from
the value. -/
def format_amount (amount : ℚ) : String :=
  let n := roundHalfEven100 amount
  let m := n.natAbs
  ⟨(if amount < 0 then ['-'] else []) ++ natDigits (m / 100) ++ '.' :: pad2C (m % 100)⟩

/-- `abs` on the amount, written with an evaluable conditional. -/
def ratAbs (q : ℚ) : ℚ := if q < 0 then -q else q

/-- `build_row`: split the signed amount into the Outflow/Inflow pair; Date,
Payee, Memo pass through; Category is always empty. -/
def build_row (date payee memo : String) (amount : ℚ) : OutputRow :=
  if 0 < amount then ⟨date, payee, "", memo, "", format_amount amount⟩
  else if amount < 0 then ⟨date, payee, "", memo, format_amount (ratAbs amount), ""⟩
  else ⟨date, payee, "", memo, "", ""⟩

/-! ## Format detection -/

/-- The two supported account types (`AccountType.GIROKONTO` / `.VISA`). -/
inductive AccountType where
  | girokonto
  | visa
deriving DecidableEq

/-- Parser state of the `csv` module's field scanner. -/
inductive CsvSt where
  | startField
  | inField
  | inQuoted
  | quoteInQuoted
deriving DecidableEq

/-- One-line field scan of `csv.reader` with a given delimiter, quote char
`"`, `doublequote=True`, non-strict: `acc` holds the current field reversed. -/
def csvScan (delim : Char) : List Char → CsvSt → List Char → List String
  | [], _, acc => [⟨acc.reverse⟩]
  | c :: rest, CsvSt.startField, acc =>
    if c = delim then ⟨acc.reverse⟩ :: csvScan delim rest CsvSt.startField []
    else if c = '"' then csvScan delim rest CsvSt.inQuoted acc
    else csvScan delim rest CsvSt.inField (c :: acc)
  | c :: rest, CsvSt.inField, acc =>
    if c = delim then ⟨acc.reverse⟩ :: csvScan delim rest CsvSt.startField []
    else csvScan delim rest CsvSt.inField (c :: acc)
  | c :: rest, CsvSt.inQuoted, acc =>
    if c = '"' then csvScan delim rest CsvSt.quoteInQuoted acc
    else csvScan delim rest CsvSt.inQuoted (c :: acc)
  | c :: rest, CsvSt.quoteInQuoted, acc =>
    if c = '"' then csvScan delim rest CsvSt.inQuoted (c :: acc)
    else if c = delim then ⟨acc.reverse⟩ :: csvScan delim rest CsvSt.startField []
    else csvScan delim rest CsvSt.inField (c :: acc)

/-- `csv.reader([line], delimiter=";")` on one terminator-free line: an empty
line yields no row (unreachable here, since a sniffed line contains the
markers). -/
def parseCsvLine (delim : Char) (l : List Char) : List String :=
  if l.isEmpty then [] else csvScan delim l CsvSt.startField []

/-- `sniff_dkb_header`: the first file line containing both `"Buchungsdatum"`
and `"Wertstellung"`, parsed as a semicolon-delimited row.  The file is
modelled as its list of lines (without terminators). -/
def sniff_dkb_header : List String → Option (List String)
  | [] => none
  | line :: rest =>
    if containsB "Buchungsdatum".data line.data && containsB "Wertstellung".data line.data then
      some (parseCsvLine ';' line.data)
    else sniff_dkb_header rest

/-- The checking-account distinguishing columns tested by
`detect_account_type`. -/
def girokontoMarkerCols : List String :=
  ["Zahlungspflichtige*r", "Zahlungsempfänger*in", "Betrag (€)"]

/-- The credit-card distinguishing columns tested by `detect_account_type`. -/
def visaMarkerCols : List String := ["Beschreibung", "Betrag (EUR)"]

/-- `detect_account_type`: sniff the header; `if not header` (missing or
empty) is an error; a superset of the checking columns is `GIROKONTO`, else a
superset of the credit-card columns is `VISA`, else an error. -/
def detect_account_type (lines : List String) : Except String AccountType :=
  match sniff_dkb_header lines with
  | none => Except.error "Unable to detect account type: header row not found."
  | some header =>
    if header.isEmpty then Except.error "Unable to detect account type: header row not found."
    else if girokontoMarkerCols.all (fun c => header.contains c) then Except.ok AccountType.girokonto
    else if visaMarkerCols.all (fun c => header.contains c) then Except.ok AccountType.visa
    else Except.error "Unable to detect account type from header columns."

/-! ## CSV pipeline -/

/-- A source data row as produced by `csv.DictReader`: an association list
from column name to raw value; `row.get(k, "")` is lookup with default. -/
def SourceRow : Type := List (String × String)

/-- `row.get(k, "")`. -/
def rowGet (row : SourceRow) (k : String) : String := (List.lookup k row).getD ""

/-- `get_required_columns` per account type. -/
def get_required_columns : AccountType → List String
  | AccountType.visa => ["Wertstellung", "Beschreibung", "Betrag (EUR)"]
  | AccountType.girokonto =>
    ["Wertstellung", "Zahlungspflichtige*r", "Zahlungsempfänger*in", "Verwendungszweck",
      "Betrag (€)"]

/-- `validate_columns`: `if not fieldnames` (absent or empty header) is an
error, then any required column missing from the header is a fatal error with
the itemized list. -/
def validate_columns (fieldnames : Option (List String)) (required : List String) :
    Except String Unit :=
  match fieldnames with
  | none => Except.error "Missing CSV header row."
  | some fs =>
    if fs.isEmpty then Except.error "Missing CSV header row."
    else
      let missing := required.filter (fun name => !(fs.contains name))
      if missing.isEmpty then Except.ok ()
      else Except.error ("Missing required columns: " ++ String.intercalate ", " missing)

/-- The per-row body of the loops in `convert` and `preview` (the two loops
are textually identical): parse the date, dispatch on the account type, skip
the row if the amount fails to parse, select payee/memo columns (sign-driven
for the checking account), normalize, rewrite PayPal payees, build the row. -/
def processRow (filetype : AccountType) (row : SourceRow) : Option OutputRow :=
  let date := convert_date_format (stripStr (rowGet row "Wertstellung"))
  match filetype with
  | AccountType.visa =>
    let payee := normalize_text (rowGet row "Beschreibung")
    let memo := normalize_text (rowGet row "")
    match parse_amount (rowGet row "Betrag (EUR)") with
    | none => none
    | some amount =>
      some (build_row date (normalize_text (normalize_payee payee memo)) memo amount)
  | AccountType.girokonto =>
    match parse_amount (rowGet row "Betrag (€)") with
    | none => none
    | some amount =>
      let payee0 := if 0 < amount then rowGet row "Zahlungspflichtige*r"
        else rowGet row "Zahlungsempfänger*in"
      let memo := normalize_text (rowGet row "Verwendungszweck")
      let payee := normalize_text (normalize_payee (normalize_text payee0) memo)
      some (build_row date payee memo amount)

/-- All rows written by `convert`'s loop, in order. -/
def convertRows (filetype : AccountType) (rows : List SourceRow) : List OutputRow :=
  rows.filterMap (processRow filetype)

/-- An output row in the field order of `YNAB_FIELDNAMES`, as written by
`csv.DictWriter.writerow`. -/
def rowToFields (r : OutputRow) : List String :=
  [r.Date, r.Payee, r.Category, r.Memo, r.Outflow, r.Inflow]

/-- `convert`, from the point where the reader and the output file are open:
the header row is written first, then the columns are validated (a failure
aborts with the header already written), then each processed row is written.
Returns the rows written to the output file and the error, if any. -/
def convert (filetype : AccountType) (fieldnames : Option (List String))
    (rows : List SourceRow) : List (List String) × Option String :=
  match validate_columns fieldnames (get_required_columns filetype) with
  | Except.error e => ([YNAB_FIELDNAMES], some e)
  | Except.ok _ => (YNAB_FIELDNAMES :: (convertRows filetype rows).map rowToFields, none)

/-- The body of `preview`'s loop: `enumerate(reader, start=1)`; a row whose
amount fails to parse is skipped via `continue` (bypassing the limit check);
after writing a row, stop when the 1-based index has reached the limit. -/
def previewGo (filetype : AccountType) : List SourceRow → ℕ → ℕ → List OutputRow
  | [], _, _ => []
  | r :: rest, i, lim =>
    match processRow filetype r with
    | none => previewGo filetype rest (i + 1) lim
    | some out => if lim ≤ i then [out] else out :: previewGo filetype rest (i + 1) lim

/-- The rows printed by `preview` (validation aside), with its row limit. -/
def previewRows (filetype : AccountType) (rows : List SourceRow) (lim : ℕ) : List OutputRow :=
  previewGo filetype rows 1 lim

/-! ## Statement-side definitions for the individual claims -/

/-- The payee transformation applied by the checking-account branch once the
source column has been selected: normalize, rewrite PayPal payees against the
normalized memo, normalize again. -/
def girPayeePipeline (payee0 rawMemo : String) : String :=
  normalize_text (normalize_payee (normalize_text payee0) (normalize_text rawMemo))

/-- The cleaning described by the spec for `convert_german_to_american`:
delete the periods and replace the comma with a period (no character-class
filter). -/
def specCleaned (s : String) : String :=
  ⟨(s.data.filter (fun c => c ≠ '.')).map (fun c => if c = ',' then '.' else c)⟩

/-- Matcher for `(\.\d{3})*,\d+`: the tail of the German number pattern after
the leading digit group. -/
def matchThousands : List Char → Bool
  | ',' :: rest => !rest.isEmpty && rest.all Char.isDigit
  | '.' :: a :: b :: c :: rest =>
    a.isDigit && b.isDigit && c.isDigit && matchThousands rest
  | _ => false

/-- Matcher for the core of the German number pattern after the optional
sign: `\d{1,3}(\.\d{3})*,\d+`. -/
def germanBody (l : List Char) : Bool :=
  let n := (l.takeWhile Char.isDigit).length
  decide (1 ≤ n) && decide (n ≤ 3) && matchThousands (l.dropWhile Char.isDigit)

/-- Full-string matcher for `-?\d{1,3}(\.\d{3})*,\d+`. -/
def germanNumberShape (s : String) : Bool :=
  match s.data with
  | [] => false
  | c :: t => if c = '-' then germanBody t else germanBody (c :: t)

/-- The canonical dotted `DD.MM.YY` rendering of a calendar date. -/
def dottedYY (d m y : ℕ) : List Char :=
  pad2C d ++ ('.' :: (pad2C m ++ ('.' :: pad2C (y % 100))))

/-- The canonical dotted `DD.MM.YYYY` rendering of a calendar date. -/
def dottedYYYY (d m y : ℕ) : List Char :=
  pad2C d ++ ('.' :: (pad2C m ++ ('.' :: pad4C y)))

/-- The slash-delimited `DD/MM/YY` rendering of a calendar date. -/
def slashDate (d m y : ℕ) : List Char :=
  pad2C d ++ ('/' :: (pad2C m ++ ('/' :: pad2C (y % 100))))

/-- A valid calendar date within `datetime`'s year range. -/
def validCalDate (y m d : ℕ) : Prop :=
  1 ≤ y ∧ y ≤ 9999 ∧ 1 ≤ m ∧ m ≤ 12 ∧ 1 ≤ d ∧ d ≤ daysInMonth y m

instance (y m d : ℕ) : Decidable (validCalDate y m d) := by
  unfold validCalDate; infer_instance

/-! ## Helper lemmas -/

theorem digitChar_facts : ∀ k < 10, (digitChar k).isDigit = true ∧ digitChar k ≠ '.' ∧
    digitChar k ≠ '/' ∧ digitChar k ≠ ',' ∧ digitChar k ≠ '-' ∧ (digitChar k).toNat = 48 + k := by
  decide

theorem format_amount_data (q : ℚ) :
    (format_amount q).data =
      (if q < 0 then ['-'] else []) ++ natDigits ((roundHalfEven100 q).natAbs / 100) ++
        '.' :: pad2C ((roundHalfEven100 q).natAbs % 100) := rfl

theorem format_amount_ne_empty (q : ℚ) : format_amount q ≠ "" := by
  intro he
  have h := format_amount_data q
  rw [he] at h
  have h0 : ("" : String).data = [] := rfl
  rw [h0] at h
  have hl := congrArg List.length h
  simp [pad2C] at hl
  omega

theorem ratAbs_eq_abs (q : ℚ) : ratAbs q = |q| := by
  by_cases h : q < 0
  · simp [ratAbs, h, abs_of_neg h]
  · simp [ratAbs, h, abs_of_nonneg (le_of_not_lt h)]

theorem build_row_invariant (d p m : String) (a : ℚ) :
    (a = 0 → (build_row d p m a).Outflow = "" ∧ (build_row d p m a).Inflow = "") ∧
    (a ≠ 0 → ((build_row d p m a).Outflow = "" ∧ (build_row d p m a).Inflow ≠ "") ∨
      ((build_row d p m a).Outflow ≠ "" ∧ (build_row d p m a).Inflow = "")) := by
  rcases lt_trichotomy a 0 with h | h | h
  · refine ⟨fun h0 => absurd h0 (ne_of_lt h), fun _ => Or.inr ⟨?_, ?_⟩⟩
    · simp only [build_row, if_neg (lt_asymm h), if_pos h]
      exact format_amount_ne_empty _
    · simp only [build_row, if_neg (lt_asymm h), if_pos h]
  · subst h
    refine ⟨fun _ => ?_, fun h0 => absurd rfl h0⟩
    simp [build_row]
  · refine ⟨fun h0 => absurd h0 (ne_of_gt h), fun _ => Or.inl ⟨?_, ?_⟩⟩
    · simp only [build_row, if_pos h]
    · simp only [build_row, if_pos h]
      exact format_amount_ne_empty _

/-! ## Claim theorems -/

/-- C6: `build_row` puts the two-decimal formatting of a positive amount in
Inflow (Outflow empty), of the absolute value of a negative amount in Outflow
(Inflow empty), leaves both empty for zero, always leaves Category empty, and
passes Date, Payee, Memo through verbatim; the formatted string always has
exactly two digits after its decimal point. -/
theorem c6_build_row (date payee memo : String) (amount : ℚ) :
    (0 < amount →
      (build_row date payee memo amount).Inflow = format_amount amount ∧
        (build_row date payee memo amount).Outflow = "") ∧
    (amount < 0 →
      (build_row date payee memo amount).Outflow = format_amount |amount| ∧
        (build_row date payee memo amount).Inflow = "") ∧
    (amount = 0 →
      (build_row date payee memo amount).Outflow = "" ∧
        (build_row date payee memo amount).Inflow = "") ∧
    (build_row date payee memo amount).Category = "" ∧
    (build_row date payee memo amount).Date = date ∧
    (build_row date payee memo amount).Payee = payee ∧
    (build_row date payee memo amount).Memo = memo ∧
    (∀ q : ℚ, ∃ pre c1 c2, (format_amount q).data = pre ++ '.' :: [c1, c2] ∧
      c1.isDigit = true ∧ c2.isDigit = true) := by
  refine ⟨?_, ?_, ?_, ?_, ?_, ?_, ?_, ?_⟩
  · intro h
    simp only [build_row, if_pos h]
    constructor <;> trivial
  · intro h
    simp only [build_row, if_neg (lt_asymm h), if_pos h, ratAbs_eq_abs]
    constructor <;> trivial
  · intro h
    subst h
    simp [build_row]
  · simp only [build_row]; split_ifs <;> rfl
  · simp only [build_row]; split_ifs <;> rfl
  · simp only [build_row]; split_ifs <;> rfl
  · simp only [build_row]; split_ifs <;> rfl
  · intro q
    refine ⟨(if q < 0 then ['-'] else []) ++ natDigits ((roundHalfEven100 q).natAbs / 100),
      digitChar ((roundHalfEven100 q).natAbs % 100 / 10 % 10),
      digitChar ((roundHalfEven100 q).natAbs % 100 % 10), ?_, ?_, ?_⟩
    · rw [format_amount_data]
      simp [pad2C, List.append_assoc]
    · exact (digitChar_facts _ (Nat.mod_lt _ (by norm_num))).1
    · exact (digitChar_facts _ (Nat.mod_lt _ (by norm_num))).1

theorem c6_witness :
    (build_row "19/02/26" "Payee" "Memo" (-(mkRat 125 10))).Outflow =
        format_amount |(-(mkRat 125 10) : ℚ)| ∧
      (build_row "19/02/26" "Payee" "Memo" (-(mkRat 125 10))).Inflow = "" :=
  (c6_build_row "19/02/26" "Payee" "Memo" (-(mkRat 125 10))).2.1 (by decide)

/-- C3: every row written by the conversion loop, for either account type, is
a `build_row` result whose Outflow/Inflow pair is mutually exclusive: both
empty exactly for a zero parsed amount, and exactly one non-empty
otherwise. -/
theorem c3_row_invariant (t : AccountType) (rows : List SourceRow) (r : OutputRow)
    (hr : r ∈ convertRows t rows) :
    ∃ (d p m : String) (a : ℚ), r = build_row d p m a ∧
      (a = 0 → r.Outflow = "" ∧ r.Inflow = "") ∧
      (a ≠ 0 → (r.Outflow = "" ∧ r.Inflow ≠ "") ∨ (r.Outflow ≠ "" ∧ r.Inflow = "")) := by
  unfold convertRows at hr
  rw [List.mem_filterMap] at hr
  obtain ⟨row, _, hp⟩ := hr
  cases t
  case girokonto =>
    simp only [processRow] at hp
    cases hpa : parse_amount (rowGet row "Betrag (€)") with
    | none => rw [hpa] at hp; simp at hp
    | some a =>
      rw [hpa] at hp
      simp only [Option.some.injEq] at hp
      subst hp
      exact ⟨_, _, _, a, rfl, (build_row_invariant _ _ _ a).1, (build_row_invariant _ _ _ a).2⟩
  case visa =>
    simp only [processRow] at hp
    cases hpa : parse_amount (rowGet row "Betrag (EUR)") with
    | none => rw [hpa] at hp; simp at hp
    | some a =>
      rw [hpa] at hp
      simp only [Option.some.injEq] at hp
      subst hp
      exact ⟨_, _, _, a, rfl, (build_row_invariant _ _ _ a).1, (build_row_invariant _ _ _ a).2⟩

theorem c3_witness :
    ∃ (d p m : String) (a : ℚ),
      build_row "" "" "" (-(mkRat 100 100)) = build_row d p m a ∧
        (a = 0 → (build_row "" "" "" (-(mkRat 100 100))).Outflow = "" ∧
          (build_row "" "" "" (-(mkRat 100 100))).Inflow = "") ∧
        (a ≠ 0 → ((build_row "" "" "" (-(mkRat 100 100))).Outflow = "" ∧
            (build_row "" "" "" (-(mkRat 100 100))).Inflow ≠ "") ∨
          ((build_row "" "" "" (-(mkRat 100 100))).Outflow ≠ "" ∧
            (build_row "" "" "" (-(mkRat 100 100))).Inflow = "")) :=
  c3_row_invariant AccountType.girokonto [[("Betrag (€)", "-1,00")]]
    (build_row "" "" "" (-(mkRat 100 100))) (by decide)

/-- C9: for a checking-account row whose amount parses, the Payee source
column is chosen by the amount's sign: `Zahlungspflichtige*r` (payer) for a
positive amount, `Zahlungsempfänger*in` (payee) for a negative one. -/
theorem c9_payee_column_sign (row : SourceRow) (a : ℚ)
    (hpa : parse_amount (rowGet row "Betrag (€)") = some a) :
    (0 < a →
      processRow AccountType.girokonto row =
        some (build_row (convert_date_format (stripStr (rowGet row "Wertstellung")))
          (girPayeePipeline (rowGet row "Zahlungspflichtige*r") (rowGet row "Verwendungszweck"))
          (normalize_text (rowGet row "Verwendungszweck")) a)) ∧
    (a < 0 →
      processRow AccountType.girokonto row =
        some (build_row (convert_date_format (stripStr (rowGet row "Wertstellung")))
          (girPayeePipeline (rowGet row "Zahlungsempfänger*in") (rowGet row "Verwendungszweck"))
          (normalize_text (rowGet row "Verwendungszweck")) a)) := by
  constructor
  · intro h
    simp only [processRow, hpa, if_pos h, girPayeePipeline]
  · intro h
    simp only [processRow, hpa, if_neg (lt_asymm h), girPayeePipeline]

theorem c9_witness :
    processRow AccountType.girokonto
        [("Wertstellung", "19.02.26"), ("Zahlungspflichtige*r", "Payer"),
          ("Zahlungsempfänger*in", "Receiver"), ("Verwendungszweck", "Zweck"),
          ("Betrag (€)", "1,00")] =
      some (build_row
        (convert_date_format (stripStr (rowGet
          [("Wertstellung", "19.02.26"), ("Zahlungspflichtige*r", "Payer"),
            ("Zahlungsempfänger*in", "Receiver"), ("Verwendungszweck", "Zweck"),
            ("Betrag (€)", "1,00")] "Wertstellung")))
        (girPayeePipeline (rowGet
          [("Wertstellung", "19.02.26"), ("Zahlungspflichtige*r", "Payer"),
            ("Zahlungsempfänger*in", "Receiver"), ("Verwendungszweck", "Zweck"),
            ("Betrag (€)", "1,00")] "Zahlungspflichtige*r")
          (rowGet
            [("Wertstellung", "19.02.26"), ("Zahlungspflichtige*r", "Payer"),
              ("Zahlungsempfänger*in", "Receiver"), ("Verwendungszweck", "Zweck"),
              ("Betrag (€)", "1,00")] "Verwendungszweck"))
        (normalize_text (rowGet
          [("Wertstellung", "19.02.26"), ("Zahlungspflichtige*r", "Payer"),
            ("Zahlungsempfänger*in", "Receiver"), ("Verwendungszweck", "Zweck"),
            ("Betrag (€)", "1,00")] "Verwendungszweck"))
        (mkRat 100 100)) :=
  (c9_payee_column_sign _ (mkRat 100 100) (by decide)).1 (by decide)

/-- C10: for a checking-account row whose parsed amount is exactly zero, both
`convert`'s and `preview`'s loop bodies take the Payee from the
`Zahlungsempfänger*in` column (the negative-amount branch), never from
`Zahlungspflichtige*r`. -/
theorem c10_zero_amount_payee (row : SourceRow)
    (hpa : parse_amount (rowGet row "Betrag (€)") = some 0) :
    processRow AccountType.girokonto row =
        some (build_row (convert_date_format (stripStr (rowGet row "Wertstellung")))
          (girPayeePipeline (rowGet row "Zahlungsempfänger*in") (rowGet row "Verwendungszweck"))
          (normalize_text (rowGet row "Verwendungszweck")) 0) ∧
      (∀ rest, convertRows AccountType.girokonto (row :: rest) =
        build_row (convert_date_format (stripStr (rowGet row "Wertstellung")))
            (girPayeePipeline (rowGet row "Zahlungsempfänger*in") (rowGet row "Verwendungszweck"))
            (normalize_text (rowGet row "Verwendungszweck")) 0 ::
          convertRows AccountType.girokonto rest) ∧
      ∀ lim, previewRows AccountType.girokonto [row] lim =
        [build_row (convert_date_format (stripStr (rowGet row "Wertstellung")))
          (girPayeePipeline (rowGet row "Zahlungsempfänger*in") (rowGet row "Verwendungszweck"))
          (normalize_text (rowGet row "Verwendungszweck")) 0] := by
  have hrow : processRow AccountType.girokonto row =
      some (build_row (convert_date_format (stripStr (rowGet row "Wertstellung")))
        (girPayeePipeline (rowGet row "Zahlungsempfänger*in") (rowGet row "Verwendungszweck"))
        (normalize_text (rowGet row "Verwendungszweck")) 0) := by
    simp only [processRow, hpa, if_neg (lt_irrefl (0 : ℚ)), girPayeePipeline]
  refine ⟨hrow, fun rest => ?_, fun lim => ?_⟩
  · simp only [convertRows, List.filterMap_cons, hrow]
  · simp only [previewRows, previewGo, hrow]
    split <;> rfl

theorem c10_witness :
    processRow AccountType.girokonto [("Zahlungsempfänger*in", "Recv"), ("Betrag (€)", "0,00")] =
        some (build_row
          (convert_date_format (stripStr
            (rowGet [("Zahlungsempfänger*in", "Recv"), ("Betrag (€)", "0,00")] "Wertstellung")))
          (girPayeePipeline
            (rowGet [("Zahlungsempfänger*in", "Recv"), ("Betrag (€)", "0,00")]
              "Zahlungsempfänger*in")
            (rowGet [("Zahlungsempfänger*in", "Recv"), ("Betrag (€)", "0,00")]
              "Verwendungszweck"))
          (normalize_text
            (rowGet [("Zahlungsempfänger*in", "Recv"), ("Betrag (€)", "0,00")]
              "Verwendungszweck")) 0) ∧
      (∀ rest, convertRows AccountType.girokonto
          ([("Zahlungsempfänger*in", "Recv"), ("Betrag (€)", "0,00")] :: rest) =
        build_row
            (convert_date_format (stripStr
              (rowGet [("Zahlungsempfänger*in", "Recv"), ("Betrag (€)", "0,00")] "Wertstellung")))
            (girPayeePipeline
              (rowGet [("Zahlungsempfänger*in", "Recv"), ("Betrag (€)", "0,00")]
                "Zahlungsempfänger*in")
              (rowGet [("Zahlungsempfänger*in", "Recv"), ("Betrag (€)", "0,00")]
                "Verwendungszweck"))
            (normalize_text
              (rowGet [("Zahlungsempfänger*in", "Recv"), ("Betrag (€)", "0,00")]
                "Verwendungszweck")) 0 ::
          convertRows AccountType.girokonto rest) ∧
      ∀ lim, previewRows AccountType.girokonto
          [[("Zahlungsempfänger*in", "Recv"), ("Betrag (€)", "0,00")]] lim =
        [build_row
          (convert_date_format (stripStr
            (rowGet [("Zahlungsempfänger*in", "Recv"), ("Betrag (€)", "0,00")] "Wertstellung")))
          (girPayeePipeline
            (rowGet [("Zahlungsempfänger*in", "Recv"), ("Betrag (€)", "0,00")]
              "Zahlungsempfänger*in")
            (rowGet [("Zahlungsempfänger*in", "Recv"), ("Betrag (€)", "0,00")]
              "Verwendungszweck"))
          (normalize_text
            (rowGet [("Zahlungsempfänger*in", "Recv"), ("Betrag (€)", "0,00")]
              "Verwendungszweck")) 0] :=
  c10_zero_amount_payee [("Zahlungsempfänger*in", "Recv"), ("Betrag (€)", "0,00")] (by decide)

theorem convertRows_girokonto_length (rows : List SourceRow) :
    (convertRows AccountType.girokonto rows).length =
      rows.length -
        (rows.filter (fun r => (parse_amount (rowGet r "Betrag (€)")).isNone)).length := by
  induction rows with
  | nil => rfl
  | cons r rest ih =>
    have hKle :=
      List.length_filter_le (fun r => (parse_amount (rowGet r "Betrag (€)")).isNone) rest
    cases hpa : parse_amount (rowGet r "Betrag (€)") with
    | none =>
      have hnone : processRow AccountType.girokonto r = none := by
        simp only [processRow, hpa]
      have hfil : List.filter (fun r => (parse_amount (rowGet r "Betrag (€)")).isNone)
          (r :: rest) =
          r :: List.filter (fun r => (parse_amount (rowGet r "Betrag (€)")).isNone) rest := by
        simp [List.filter_cons, hpa]
      simp only [convertRows] at ih ⊢
      rw [List.filterMap_cons_none hnone, hfil]
      simp only [List.length_cons]
      omega
    | some a =>
      have hsome : ∃ out, processRow AccountType.girokonto r = some out := by
        simp only [processRow, hpa]
        exact ⟨_, rfl⟩
      obtain ⟨out, hout⟩ := hsome
      have hfil : List.filter (fun r => (parse_amount (rowGet r "Betrag (€)")).isNone)
          (r :: rest) =
          List.filter (fun r => (parse_amount (rowGet r "Betrag (€)")).isNone) rest := by
        simp [List.filter_cons, hpa]
      simp only [convertRows] at ih ⊢
      rw [List.filterMap_cons_some hout, hfil]
      simp only [List.length_cons]
      omega

/-- C2: an accepted checking-account input with `N` data rows of which `K`
have unparseable amounts produces exactly one header row plus `N − K` data
rows: rows with unparseable amounts are skipped, processing continues. -/
theorem c2_row_count (fs : List String) (rows : List SourceRow)
    (hv : validate_columns (some fs) (get_required_columns AccountType.girokonto) =
      Except.ok ()) :
    (convert AccountType.girokonto (some fs) rows).1.length =
        1 + (rows.length -
          (rows.filter (fun r => (parse_amount (rowGet r "Betrag (€)")).isNone)).length) ∧
      (convert AccountType.girokonto (some fs) rows).1.head? = some YNAB_FIELDNAMES := by
  simp only [convert, hv]
  refine ⟨?_, rfl⟩
  simp only [List.length_cons, List.length_map, convertRows_girokonto_length rows]
  omega

theorem c2_witness :
    (convert AccountType.girokonto (some (get_required_columns AccountType.girokonto))
        [[("Betrag (€)", "-1,00")], [("Betrag (€)", "kaputt")]]).1.length = 2 :=
  ((c2_row_count (get_required_columns AccountType.girokonto)
      [[("Betrag (€)", "-1,00")], [("Betrag (€)", "kaputt")]] rfl).1).trans (by decide)

/-- C1 counterexample: a checking-account conversion whose header lacks
required columns does fail, but the output file already holds the output
header row — not the empty content the claim asserts. -/
theorem c1_counterexample :
    (convert AccountType.girokonto (some ["Wertstellung"]) []).2 =
        some "Missing required columns: Zahlungspflichtige*r, Zahlungsempfänger*in, Verwendungszweck, Betrag (€)" ∧
      (convert AccountType.girokonto (some ["Wertstellung"]) []).1 = [YNAB_FIELDNAMES] ∧
      (convert AccountType.girokonto (some ["Wertstellung"]) []).1 ≠ [] :=
  ⟨rfl, rfl, by decide⟩

/-- C1 (amended): when one or more required columns are missing, the
conversion aborts before any data row is written — the output content is
exactly the already-written header row, and an error is raised. -/
theorem c1_missing_columns_abort (t : AccountType) (fs : List String) (rows : List SourceRow)
    (h : (get_required_columns t).any (fun c => !(fs.contains c)) = true) :
    (convert t (some fs) rows).1 = [YNAB_FIELDNAMES] ∧
      (convert t (some fs) rows).2.isSome = true := by
  have hv : ∃ e, validate_columns (some fs) (get_required_columns t) = Except.error e := by
    simp only [validate_columns]
    by_cases hfs : fs.isEmpty = true
    · rw [if_pos hfs]
      exact ⟨_, rfl⟩
    · rw [if_neg hfs]
      have hne : ¬ ((get_required_columns t).filter
          (fun name => !(fs.contains name))).isEmpty = true := by
        obtain ⟨c, hc, hcont⟩ := List.any_eq_true.mp h
        intro hemp
        have hmem : c ∈ (get_required_columns t).filter (fun name => !(fs.contains name)) :=
          List.mem_filter.mpr ⟨hc, hcont⟩
        rw [List.isEmpty_iff] at hemp
        rw [hemp] at hmem
        exact absurd hmem (List.not_mem_nil c)
      rw [if_neg hne]
      exact ⟨_, rfl⟩
  obtain ⟨e, he⟩ := hv
  simp only [convert, he]
  simp

theorem c1_witness :
    (convert AccountType.visa (some ["Wertstellung", "Beschreibung"]) []).1 =
        [YNAB_FIELDNAMES] ∧
      (convert AccountType.visa (some ["Wertstellung", "Beschreibung"]) []).2.isSome = true :=
  c1_missing_columns_abort AccountType.visa ["Wertstellung", "Beschreibung"] [] (by decide)

theorem sniff_eq_find (lines : List String) :
    sniff_dkb_header lines =
      (lines.find? (fun l => containsB "Buchungsdatum".data l.data &&
        containsB "Wertstellung".data l.data)).map (fun l => parseCsvLine ';' l.data) := by
  induction lines with
  | nil => rfl
  | cons line rest ih =>
    by_cases hp : (containsB "Buchungsdatum".data line.data &&
        containsB "Wertstellung".data line.data) = true
    · simp [sniff_dkb_header, List.find?, hp]
    · have hp2 := eq_false_of_ne_true hp
      simp [sniff_dkb_header, List.find?, hp2, ih]

/-- C7: `sniff_dkb_header` returns the first file line containing both header
markers, parsed semicolon-delimited; `detect_account_type` classifies as
Girokonto exactly for a superset of the checking columns, as VISA exactly for
a superset of the credit-card columns that is not a checking superset, and
errors exactly when no marker line exists or the header matches neither
column set. -/
theorem c7_detect_account_type (lines : List String) :
    sniff_dkb_header lines =
        (lines.find? (fun l => containsB "Buchungsdatum".data l.data &&
          containsB "Wertstellung".data l.data)).map (fun l => parseCsvLine ';' l.data) ∧
      (detect_account_type lines = Except.ok AccountType.girokonto ↔
        ∃ h, sniff_dkb_header lines = some h ∧
          girokontoMarkerCols.all (fun c => h.contains c) = true) ∧
      (detect_account_type lines = Except.ok AccountType.visa ↔
        ∃ h, sniff_dkb_header lines = some h ∧
          visaMarkerCols.all (fun c => h.contains c) = true ∧
          girokontoMarkerCols.all (fun c => h.contains c) = false) ∧
      ((∃ e, detect_account_type lines = Except.error e) ↔
        (sniff_dkb_header lines = none ∨
          ∃ h, sniff_dkb_header lines = some h ∧
            girokontoMarkerCols.all (fun c => h.contains c) = false ∧
            visaMarkerCols.all (fun c => h.contains c) = false)) := by
  refine ⟨sniff_eq_find lines, ?_⟩
  cases hs : sniff_dkb_header lines with
  | none =>
    simp only [detect_account_type, hs]
    refine ⟨⟨fun hco => by simp at hco, fun ⟨h2, hh2, _⟩ => by simp at hh2⟩,
      ⟨fun hco => by simp at hco, fun ⟨h2, hh2, _⟩ => by simp at hh2⟩,
      ⟨fun _ => Or.inl trivial, fun _ => ⟨_, rfl⟩⟩⟩

  | some header =>
    simp only [detect_account_type, hs]
    by_cases hemp : header.isEmpty = true
    · rw [if_pos hemp]
      have h0 : header = [] := List.isEmpty_iff.mp hemp
      subst h0
      refine ⟨⟨fun hco => by simp at hco, fun ⟨h2, hh2, hall⟩ => ?_⟩,
        ⟨fun hco => by simp at hco, fun ⟨h2, hh2, hall, _⟩ => ?_⟩,
        ⟨fun _ => Or.inr ⟨[], rfl, by decide, by decide⟩, fun _ => ⟨_, rfl⟩⟩⟩
      · obtain rfl : ([] : List String) = h2 := Option.some.injEq _ _ ▸ hh2
        exact absurd hall (by decide)
      · obtain rfl : ([] : List String) = h2 := Option.some.injEq _ _ ▸ hh2
        exact absurd hall (by decide)
    · rw [if_neg hemp]
      by_cases hg : girokontoMarkerCols.all (fun c => header.contains c) = true
      · rw [if_pos hg]
        refine ⟨⟨fun _ => ⟨header, rfl, hg⟩, fun _ => rfl⟩,
          ⟨fun hco => by simp at hco, fun ⟨h2, hh2, _, hgf⟩ => ?_⟩,
          ⟨fun ⟨e, he⟩ => by simp at he, fun hor => ?_⟩⟩
        · obtain rfl : header = h2 := by
            injection hh2
          rw [hg] at hgf
          exact absurd hgf (by simp)
        · rcases hor with hn | ⟨h2, hh2, hgf, _⟩
          · exact absurd hn (by simp)
          · obtain rfl : header = h2 := by injection hh2
            rw [hg] at hgf
            exact absurd hgf (by simp)
      · rw [if_neg hg]
        have hgf : girokontoMarkerCols.all (fun c => header.contains c) = false :=
          Bool.not_eq_true _ ▸ eq_false_of_ne_true hg
        by_cases hv2 : visaMarkerCols.all (fun c => header.contains c) = true
        · rw [if_pos hv2]
          refine ⟨⟨fun hco => ?_, fun ⟨h2, hh2, hall⟩ => ?_⟩,
            ⟨fun _ => ⟨header, rfl, hv2, hgf⟩, fun _ => rfl⟩,
            ⟨fun ⟨e, he⟩ => by simp at he, fun hor => ?_⟩⟩
          · injection hco with hco2
            exact absurd hco2 (by simp)
          · obtain rfl : header = h2 := by injection hh2
            rw [hall] at hgf
            exact absurd hgf (by simp)
          · rcases hor with hn | ⟨h2, hh2, _, hvf⟩
            · exact absurd hn (by simp)
            · obtain rfl : header = h2 := by injection hh2
              rw [hv2] at hvf
              exact absurd hvf (by simp)
        · rw [if_neg hv2]
          have hvf : visaMarkerCols.all (fun c => header.contains c) = false :=
            eq_false_of_ne_true hv2
          refine ⟨⟨fun hco => by simp at hco, fun ⟨h2, hh2, hall⟩ => ?_⟩,
            ⟨fun hco => by simp at hco, fun ⟨h2, hh2, hall, _⟩ => ?_⟩,
            ⟨fun _ => Or.inr ⟨header, rfl, hgf, hvf⟩, fun _ => ⟨_, rfl⟩⟩⟩
          · obtain rfl : header = h2 := by injection hh2
            rw [hall] at hgf
            exact absurd hgf (by simp)
          · obtain rfl : header = h2 := by injection hh2
            rw [hall] at hvf
            exact absurd hvf (by simp)

theorem c7_witness :
    sniff_dkb_header ["junk", "Buchungsdatum;Wertstellung;Beschreibung;Betrag (EUR)"] =
        (["junk", "Buchungsdatum;Wertstellung;Beschreibung;Betrag (EUR)"].find?
            (fun l => containsB "Buchungsdatum".data l.data &&
              containsB "Wertstellung".data l.data)).map (fun l => parseCsvLine ';' l.data) ∧
      (detect_account_type ["junk", "Buchungsdatum;Wertstellung;Beschreibung;Betrag (EUR)"] =
          Except.ok AccountType.girokonto ↔
        ∃ h, sniff_dkb_header ["junk", "Buchungsdatum;Wertstellung;Beschreibung;Betrag (EUR)"] =
            some h ∧ girokontoMarkerCols.all (fun c => h.contains c) = true) ∧
      (detect_account_type ["junk", "Buchungsdatum;Wertstellung;Beschreibung;Betrag (EUR)"] =
          Except.ok AccountType.visa ↔
        ∃ h, sniff_dkb_header ["junk", "Buchungsdatum;Wertstellung;Beschreibung;Betrag (EUR)"] =
            some h ∧ visaMarkerCols.all (fun c => h.contains c) = true ∧
          girokontoMarkerCols.all (fun c => h.contains c) = false) ∧
      ((∃ e, detect_account_type ["junk", "Buchungsdatum;Wertstellung;Beschreibung;Betrag (EUR)"] =
          Except.error e) ↔
        (sniff_dkb_header ["junk", "Buchungsdatum;Wertstellung;Beschreibung;Betrag (EUR)"] =
            none ∨
          ∃ h, sniff_dkb_header
              ["junk", "Buchungsdatum;Wertstellung;Beschreibung;Betrag (EUR)"] = some h ∧
            girokontoMarkerCols.all (fun c => h.contains c) = false ∧
            visaMarkerCols.all (fun c => h.contains c) = false)) :=
  c7_detect_account_type ["junk", "Buchungsdatum;Wertstellung;Beschreibung;Betrag (EUR)"]

theorem takeWhile_append_stop (p : Char → Bool) (x : Char) (hx : p x = false) :
    ∀ (a r : List Char), (∀ c ∈ a, p c = true) →
      (a ++ x :: r).takeWhile p = a ∧ (a ++ x :: r).dropWhile p = x :: r := by
  intro a
  induction a with
  | nil =>
    intro r _
    simp [List.takeWhile, List.dropWhile, hx]
  | cons c rest ih =>
    intro r h
    have hc : p c = true := h c (List.mem_cons_self c rest)
    have hrest := ih r (fun d hd => h d (List.mem_cons_of_mem c hd))
    simp [List.takeWhile, List.dropWhile, hc, hrest.1, hrest.2]

theorem isDigit_ne (c : Char) (h : c.isDigit = true) :
    c ≠ '-' ∧ c ≠ '+' ∧ c ≠ '.' ∧ c ≠ ',' := by
  refine ⟨?_, ?_, ?_, ?_⟩ <;> rintro rfl <;> exact absurd h (by decide)

theorem matchThousands_keep (t : List Char) (h : matchThousands t = true) :
    ∀ c ∈ t, keepChar c = true := by
  induction t using matchThousands.induct <;> simp_all [matchThousands, keepChar]

theorem matchThousands_decomp (t : List Char) (h : matchThousands t = true) :
    ∃ ds fs, t.filter (fun c => c ≠ '.') = ds ++ ',' :: fs ∧
      (∀ c ∈ ds, c.isDigit = true) ∧ (∀ c ∈ fs, c.isDigit = true) ∧ fs ≠ [] := by
  induction t using matchThousands.induct with
  | case1 rest =>
    simp only [matchThousands, Bool.and_eq_true, List.all_eq_true] at h
    obtain ⟨hne, hd⟩ := h
    refine ⟨[], rest, ?_, by simp, hd, ?_⟩
    · simp only [List.filter_cons]
      rw [if_pos (by decide : (decide ((',' : Char) ≠ '.')) = true)]
      rw [List.filter_eq_self.mpr fun c hc => decide_eq_true (isDigit_ne c (hd c hc)).2.2.1]
      rfl
    · intro hemp
      rw [hemp] at hne
      exact absurd hne (by decide)
  | case2 a b c rest ih =>
    simp only [matchThousands, Bool.and_eq_true] at h
    obtain ⟨⟨⟨ha, hb⟩, hc⟩, hm⟩ := h
    obtain ⟨ds, fs, hfil, hds, hfs, hne⟩ := ih hm
    refine ⟨a :: b :: c :: ds, fs, ?_, ?_, hfs, hne⟩
    · simp only [List.filter_cons]
      rw [if_neg (by simp : ¬ (decide (('.' : Char) ≠ '.')) = true)]
      rw [if_pos (decide_eq_true (isDigit_ne a ha).2.2.1),
        if_pos (decide_eq_true (isDigit_ne b hb).2.2.1),
        if_pos (decide_eq_true (isDigit_ne c hc).2.2.1), hfil]
      rfl
    · intro d hd
      simp only [List.mem_cons] at hd
      rcases hd with rfl | rfl | rfl | hd2
      · exact ha
      · exact hb
      · exact hc
      · exact hds d hd2
  | case3 t h1 h2 =>
    exfalso
    rw [matchThousands.eq_def] at h
    split at h
    · exact h1 _ rfl
    · exact h2 _ _ _ _ rfl
    · exact absurd h (by simp)

theorem map_repl_of_no_comma (l : List Char) (h : ∀ c ∈ l, c ≠ ',') :
    l.map (fun c => if c = ',' then '.' else c) = l := by
  induction l with
  | nil => rfl
  | cons c rest ih =>
    have hc := h c (List.mem_cons_self c rest)
    simp only [List.map_cons, if_neg hc,
      ih (fun d hd => h d (List.mem_cons_of_mem c hd))]

theorem parseUnsignedFloat_isSome (a fs : List Char)
    (h1 : ∀ c ∈ a, c.isDigit = true) (h2 : ∀ c ∈ fs, c.isDigit = true) (hfs : fs ≠ []) :
    (parseUnsignedFloat (a ++ '.' :: fs)).isSome = true := by
  obtain ⟨ht, hd⟩ := takeWhile_append_stop Char.isDigit '.' (by decide) a fs h1
  simp only [parseUnsignedFloat, ht, hd]
  have hall : fs.all Char.isDigit = true := List.all_eq_true.mpr h2
  have hemp : fs.isEmpty = false := by
    cases fs with
    | nil => exact absurd rfl hfs
    | cons x xs => rfl
  simp [hall, hemp]

theorem germanBody_struct (body : List Char) (h : germanBody body = true) :
    ∃ ds0 rest, body = ds0 ++ rest ∧ ds0 ≠ [] ∧ (∀ c ∈ ds0, c.isDigit = true) ∧
      matchThousands rest = true := by
  simp only [germanBody, Bool.and_eq_true, decide_eq_true_eq] at h
  refine ⟨body.takeWhile Char.isDigit, body.dropWhile Char.isDigit,
    (List.takeWhile_append_dropWhile Char.isDigit body).symm, ?_, ?_, h.2⟩
  · intro hemp
    have h11 := h.1.1
    rw [hemp] at h11
    simp at h11
  · intro c hc
    exact List.mem_takeWhile_imp hc

theorem germanShape_keep (s : String) (h : germanNumberShape s = true) :
    ∀ c ∈ s.data, keepChar c = true := by
  have hbody : ∀ (body : List Char), germanBody body = true → ∀ c ∈ body, keepChar c = true := by
    intro body hb c hc
    obtain ⟨ds0, rest, heq, _, hds0, hmt⟩ := germanBody_struct body hb
    rw [heq] at hc
    rcases List.mem_append.mp hc with hc1 | hc2
    · simp [keepChar, hds0 c hc1]
    · exact matchThousands_keep rest hmt c hc2
  cases hsd : s.data with
  | nil => simp [germanNumberShape, hsd] at h
  | cons c t =>
    simp only [germanNumberShape, hsd] at h
    by_cases hcm : c = '-'
    · subst hcm
      rw [if_pos rfl] at h
      intro d hd
      simp only [List.mem_cons] at hd
      rcases hd with rfl | hd2
      · decide
      · exact hbody t h d hd2
    · rw [if_neg hcm] at h
      intro d hd
      exact hbody (c :: t) h d hd

/-- C4: on strings matching the German number shape, the conversion returns
exactly the decimal value of the string with periods deleted and the comma
replaced by a period (and it does succeed); on any input whose cleaned form
is not a valid number it returns the failure sentinel instead of raising. -/
theorem c4_german_number :
    (∀ s : String, germanNumberShape s = true →
      convert_german_to_american s = parseFloat (specCleaned s) ∧
        (convert_german_to_american s).isSome = true) ∧
    (∀ s : String, parseFloat (codeCleaned s) = none →
      convert_german_to_american s = none) := by
  constructor
  · intro s hs
    have hall := germanShape_keep s hs
    have hfe : s.data.filter keepChar = s.data := List.filter_eq_self.mpr hall
    have heq : codeCleaned s = specCleaned s := by
      simp only [codeCleaned, specCleaned, hfe]
    refine ⟨by rw [convert_german_to_american, heq], ?_⟩
    rw [convert_german_to_american]
    -- structural decomposition of the cleaned string
    have hcc : (codeCleaned s).data =
        ((s.data.filter (fun c => c ≠ '.')).map (fun c => if c = ',' then '.' else c)) := by
      simp only [codeCleaned, hfe]
    cases hsd : s.data with
    | nil => simp [germanNumberShape, hsd] at hs
    | cons c t =>
      simp only [germanNumberShape, hsd] at hs
      by_cases hcm : c = '-'
      · subst hcm
        rw [if_pos rfl] at hs
        obtain ⟨ds0, rest, heq2, hne0, hds0, hmt⟩ := germanBody_struct t hs
        obtain ⟨ds, fs, hfil, hds, hfs2, hnefs⟩ := matchThousands_decomp rest hmt
        have hclean : (codeCleaned s).data = '-' :: (ds0 ++ ds ++ '.' :: fs) := by
          rw [hcc, hsd, heq2]
          simp only [List.filter_cons]
          rw [if_pos (by decide : (decide (('-' : Char) ≠ '.')) = true)]
          rw [List.filter_append, hfil]
          rw [List.filter_eq_self.mpr
            (fun d hd => decide_eq_true (isDigit_ne d (hds0 d hd)).2.2.1)]
          simp only [List.map_cons]
          rw [if_neg (by decide : ¬ ('-' : Char) = ',')]
          rw [← List.append_assoc]
          rw [List.map_append]
          rw [map_repl_of_no_comma (ds0 ++ ds) (fun d hd => by
            rcases List.mem_append.mp hd with h1 | h1
            · exact (isDigit_ne d (hds0 d h1)).2.2.2
            · exact (isDigit_ne d (hds d h1)).2.2.2)]
          rw [show List.map (fun c => if c = ',' then '.' else c) (',' :: fs) = '.' :: fs by
            simp only [List.map_cons]
            rw [map_repl_of_no_comma fs (fun d hd => (isDigit_ne d (hfs2 d hd)).2.2.2)]
            simp]
        simp only [parseFloat, hclean]
        rw [if_pos trivial]
        rw [show ∀ (o : Option ℚ), (Option.map (fun q => -q) o).isSome = o.isSome from
          fun o => by cases o <;> rfl]
        have hdig : ∀ d ∈ ds0 ++ ds, d.isDigit = true := fun d hd => by
          rcases List.mem_append.mp hd with h1 | h1
          · exact hds0 d h1
          · exact hds d h1
        exact parseUnsignedFloat_isSome (ds0 ++ ds) fs hdig hfs2 hnefs
      · rw [if_neg hcm] at hs
        obtain ⟨ds0, rest, heq2, hne0, hds0, hmt⟩ := germanBody_struct (c :: t) hs
        obtain ⟨ds, fs, hfil, hds, hfs2, hnefs⟩ := matchThousands_decomp rest hmt
        have hclean : (codeCleaned s).data = ds0 ++ ds ++ '.' :: fs := by
          rw [hcc, hsd, heq2]
          rw [List.filter_append, hfil]
          rw [List.filter_eq_self.mpr
            (fun d hd => decide_eq_true (isDigit_ne d (hds0 d hd)).2.2.1)]
          rw [← List.append_assoc]
          rw [List.map_append]
          rw [map_repl_of_no_comma (ds0 ++ ds) (fun d hd => by
            rcases List.mem_append.mp hd with h1 | h1
            · exact (isDigit_ne d (hds0 d h1)).2.2.2
            · exact (isDigit_ne d (hds d h1)).2.2.2)]
          rw [show List.map (fun c => if c = ',' then '.' else c) (',' :: fs) = '.' :: fs by
            simp only [List.map_cons]
            rw [map_repl_of_no_comma fs (fun d hd => (isDigit_ne d (hfs2 d hd)).2.2.2)]
            simp]
        cases hds0c : ds0 with
        | nil => exact absurd hds0c hne0
        | cons d0 ds0t =>
          have hd0 : d0.isDigit = true := hds0 d0 (hds0c ▸ List.mem_cons_self d0 ds0t)
          rw [hds0c] at hclean
          simp only [parseFloat, hclean]
          simp only [List.cons_append]
          rw [if_neg (isDigit_ne d0 hd0).1, if_neg (isDigit_ne d0 hd0).2.1]
          have hdig : ∀ d ∈ (d0 :: ds0t) ++ ds, d.isDigit = true := fun d hd => by
            rcases List.mem_append.mp hd with h1 | h1
            · exact hds0 d (hds0c ▸ h1)
            · exact hds d h1
          have := parseUnsignedFloat_isSome ((d0 :: ds0t) ++ ds) fs hdig hfs2 hnefs
          simpa using this
  · intro s h
    exact h

theorem digitsVal_pad2 (n : ℕ) (h : n < 100) : digitsVal (pad2C n) = n := by
  have h1 := (digitChar_facts (n / 10 % 10) (Nat.mod_lt _ (by norm_num))).2.2.2.2.2
  have h2 := (digitChar_facts (n % 10) (Nat.mod_lt _ (by norm_num))).2.2.2.2.2
  simp [digitsVal, pad2C, h1, h2]
  omega

theorem digitsVal_pad4 (n : ℕ) (h : n < 10000) : digitsVal (pad4C n) = n := by
  have h1 := (digitChar_facts (n / 1000 % 10) (Nat.mod_lt _ (by norm_num))).2.2.2.2.2
  have h2 := (digitChar_facts (n / 100 % 10) (Nat.mod_lt _ (by norm_num))).2.2.2.2.2
  have h3 := (digitChar_facts (n / 10 % 10) (Nat.mod_lt _ (by norm_num))).2.2.2.2.2
  have h4 := (digitChar_facts (n % 10) (Nat.mod_lt _ (by norm_num))).2.2.2.2.2
  simp [digitsVal, pad4C, h1, h2, h3, h4]
  omega

theorem pad2C_digits (n : ℕ) : ∀ c ∈ pad2C n, c.isDigit = true := by
  intro c hc
  simp only [pad2C, List.mem_cons, List.not_mem_nil, or_false] at hc
  rcases hc with rfl | rfl
  · exact (digitChar_facts _ (Nat.mod_lt _ (by norm_num))).1
  · exact (digitChar_facts _ (Nat.mod_lt _ (by norm_num))).1

theorem pad2C_no_dot (n : ℕ) : ∀ c ∈ pad2C n, c ≠ '.' := by
  intro c hc
  simp only [pad2C, List.mem_cons, List.not_mem_nil, or_false] at hc
  rcases hc with rfl | rfl
  · exact (digitChar_facts _ (Nat.mod_lt _ (by norm_num))).2.1
  · exact (digitChar_facts _ (Nat.mod_lt _ (by norm_num))).2.1

theorem pad4C_digits (n : ℕ) : ∀ c ∈ pad4C n, c.isDigit = true := by
  intro c hc
  simp only [pad4C, List.mem_cons, List.not_mem_nil, or_false] at hc
  rcases hc with rfl | rfl | rfl | rfl <;>
    exact (digitChar_facts _ (Nat.mod_lt _ (by norm_num))).1

theorem pad4C_no_dot (n : ℕ) : ∀ c ∈ pad4C n, c ≠ '.' := by
  intro c hc
  simp only [pad4C, List.mem_cons, List.not_mem_nil, or_false] at hc
  rcases hc with rfl | rfl | rfl | rfl <;>
    exact (digitChar_facts _ (Nat.mod_lt _ (by norm_num))).2.1

theorem splitDots_no_dot (l : List Char) (h : ∀ c ∈ l, c ≠ '.') : splitDots l = [l] := by
  induction l with
  | nil => rfl
  | cons c rest ih =>
    have hc : c ≠ '.' := h c (List.mem_cons_self c rest)
    rw [splitDots, if_neg hc, ih (fun d hd => h d (List.mem_cons_of_mem c hd))]

theorem splitDots_append (a r : List Char) (h : ∀ c ∈ a, c ≠ '.') :
    splitDots (a ++ '.' :: r) = a :: splitDots r := by
  induction a with
  | nil =>
    simp only [List.nil_append]
    rw [splitDots, if_pos rfl]
  | cons c a2 ih =>
    have hc : c ≠ '.' := h c (List.mem_cons_self c a2)
    simp only [List.cons_append]
    rw [splitDots, if_neg hc, ih (fun d hd => h d (List.mem_cons_of_mem c hd))]

theorem daysInMonth_le (y m : ℕ) : daysInMonth y m ≤ 31 := by
  unfold daysInMonth
  split_ifs <;> omega

theorem dayTok_pad2 (d : ℕ) (h1 : 1 ≤ d) (h2 : d ≤ 31) : dayTok (pad2C d) = true := by
  have hv : digitsVal (pad2C d) = d := digitsVal_pad2 d (by omega)
  have ha : (pad2C d).all Char.isDigit = true := List.all_eq_true.mpr (pad2C_digits d)
  have hlen : (pad2C d).length = 2 := rfl
  unfold dayTok
  rw [ha, hv, hlen]
  simp [h1, h2]

theorem monthTok_pad2 (m : ℕ) (h1 : 1 ≤ m) (h2 : m ≤ 12) : monthTok (pad2C m) = true := by
  have hv : digitsVal (pad2C m) = m := digitsVal_pad2 m (by omega)
  have ha : (pad2C m).all Char.isDigit = true := List.all_eq_true.mpr (pad2C_digits m)
  have hlen : (pad2C m).length = 2 := rfl
  unfold monthTok
  rw [ha, hv, hlen]
  simp [h1, h2]

theorem daysInMonth_century_shift (y m d : ℕ) (hd : d ≤ daysInMonth y m) :
    d ≤ daysInMonth (if y % 100 ≤ 68 then 2000 + y % 100 else 1900 + y % 100) m := by
  by_cases hm : m = 2
  · subst hm
    have h28 : daysInMonth y 2 = if isLeap y then 29 else 28 := rfl
    have h28b : daysInMonth (if y % 100 ≤ 68 then 2000 + y % 100 else 1900 + y % 100) 2 =
        if isLeap (if y % 100 ≤ 68 then 2000 + y % 100 else 1900 + y % 100) then 29 else 28 :=
      rfl
    rw [h28b]
    rw [h28] at hd
    by_cases hleap : isLeap y = true
    · have hleap2 : isLeap (if y % 100 ≤ 68 then 2000 + y % 100 else 1900 + y % 100) = true := by
        unfold isLeap at hleap ⊢
        simp only [Bool.and_eq_true, Bool.or_eq_true, decide_eq_true_eq] at hleap ⊢
        by_cases h68 : y % 100 ≤ 68
        · rw [if_pos h68]
          omega
        · rw [if_neg h68]
          omega
      rw [if_pos hleap2]
      rw [if_pos hleap] at hd
      omega
    · rw [eq_false_of_ne_true hleap] at hd
      simp only [Bool.false_eq_true, if_false] at hd
      split_ifs <;> omega
  · have hsame : daysInMonth (if y % 100 ≤ 68 then 2000 + y % 100 else 1900 + y % 100) m =
        daysInMonth y m := by
      unfold daysInMonth
      rw [if_neg hm, if_neg hm]
    rw [hsame]
    exact hd

theorem strptime2_dottedYY (y m d : ℕ) (h : validCalDate y m d) :
    strptime2 (dottedYY d m y) =
      some ⟨if y % 100 ≤ 68 then 2000 + y % 100 else 1900 + y % 100, m, d⟩ := by
  obtain ⟨hy1, hy2, hm1, hm2, hd1, hd2⟩ := h
  have hd31 : d ≤ 31 := le_trans hd2 (daysInMonth_le y m)
  have hsplit : splitDots (dottedYY d m y) = [pad2C d, pad2C m, pad2C (y % 100)] := by
    unfold dottedYY
    rw [splitDots_append _ _ (pad2C_no_dot d), splitDots_append _ _ (pad2C_no_dot m),
      splitDots_no_dot _ (pad2C_no_dot (y % 100))]
  have hda : dayTok (pad2C d) = true := dayTok_pad2 d hd1 hd31
  have hmo : monthTok (pad2C m) = true := monthTok_pad2 m hm1 hm2
  have hyall : (pad2C (y % 100)).all Char.isDigit = true :=
    List.all_eq_true.mpr (pad2C_digits (y % 100))
  have hvd : digitsVal (pad2C d) = d := digitsVal_pad2 d (by omega)
  have hvm : digitsVal (pad2C m) = m := digitsVal_pad2 m (by omega)
  have hvy : digitsVal (pad2C (y % 100)) = y % 100 :=
    digitsVal_pad2 (y % 100) (Nat.mod_lt _ (by norm_num))
  have hcond : (dayTok (pad2C d) && monthTok (pad2C m) &&
      decide ((pad2C (y % 100)).length = 2) && (pad2C (y % 100)).all Char.isDigit) = true := by
    rw [hda, hmo, hyall]
    rfl
  simp only [strptime2, hsplit]
  rw [if_pos hcond, hvd, hvm, hvy]
  rw [if_pos (daysInMonth_century_shift y m d hd2)]

theorem strptime2_dottedYYYY (y m d : ℕ) : strptime2 (dottedYYYY d m y) = none := by
  have hsplit : splitDots (dottedYYYY d m y) = [pad2C d, pad2C m, pad4C y] := by
    unfold dottedYYYY
    rw [splitDots_append _ _ (pad2C_no_dot d), splitDots_append _ _ (pad2C_no_dot m),
      splitDots_no_dot _ (pad4C_no_dot y)]
  have hneg : ¬ ((dayTok (pad2C d) && monthTok (pad2C m) &&
      decide ((pad4C y).length = 2) && (pad4C y).all Char.isDigit) = true) := by
    intro hco
    simp only [Bool.and_eq_true] at hco
    have h2 := hco.1.2
    simp [pad4C] at h2
  simp only [strptime2, hsplit]
  rw [if_neg hneg]

theorem strptime4_dottedYYYY (y m d : ℕ) (h : validCalDate y m d) :
    strptime4 (dottedYYYY d m y) = some ⟨y, m, d⟩ := by
  obtain ⟨hy1, hy2, hm1, hm2, hd1, hd2⟩ := h
  have hd31 : d ≤ 31 := le_trans hd2 (daysInMonth_le y m)
  have hsplit : splitDots (dottedYYYY d m y) = [pad2C d, pad2C m, pad4C y] := by
    unfold dottedYYYY
    rw [splitDots_append _ _ (pad2C_no_dot d), splitDots_append _ _ (pad2C_no_dot m),
      splitDots_no_dot _ (pad4C_no_dot y)]
  have hda : dayTok (pad2C d) = true := dayTok_pad2 d hd1 hd31
  have hmo : monthTok (pad2C m) = true := monthTok_pad2 m hm1 hm2
  have hyall : (pad4C y).all Char.isDigit = true := List.all_eq_true.mpr (pad4C_digits y)
  have hvd : digitsVal (pad2C d) = d := digitsVal_pad2 d (by omega)
  have hvm : digitsVal (pad2C m) = m := digitsVal_pad2 m (by omega)
  have hvy : digitsVal (pad4C y) = y := digitsVal_pad4 y (by omega)
  have hcond : (dayTok (pad2C d) && monthTok (pad2C m) &&
      decide ((pad4C y).length = 4) && (pad4C y).all Char.isDigit) = true := by
    rw [hda, hmo, hyall]
    rfl
  simp only [strptime4, hsplit]
  rw [if_pos hcond, hvd, hvm, hvy]
  rw [if_pos ⟨hy1, hd2⟩]

/-- C5: for a valid calendar date, both its `DD.MM.YY` and its `DD.MM.YYYY`
dotted forms convert to the same `DD/MM/YY` slash string; any input that
matches neither dotted pattern passes through unchanged. -/
theorem c5_convert_date_format :
    (∀ y m d : ℕ, validCalDate y m d →
      convert_date_format ⟨dottedYY d m y⟩ = ⟨slashDate d m y⟩ ∧
        convert_date_format ⟨dottedYYYY d m y⟩ = ⟨slashDate d m y⟩) ∧
    ∀ s : String, strptime2 s.data = none → strptime4 s.data = none →
      convert_date_format s = s := by
  constructor
  · intro y m d h
    constructor
    · rw [show convert_date_format ⟨dottedYY d m y⟩ =
        (match strptime2 (dottedYY d m y) with
          | some dt => (⟨strftimeSlash dt⟩ : String)
          | none =>
            match strptime4 (dottedYY d m y) with
            | some dt => (⟨strftimeSlash dt⟩ : String)
            | none => ⟨dottedYY d m y⟩) from rfl]
      rw [strptime2_dottedYY y m d h]
      show (⟨strftimeSlash ⟨if y % 100 ≤ 68 then 2000 + y % 100 else 1900 + y % 100, m, d⟩⟩ :
        String) = ⟨slashDate d m y⟩
      have hmod : (if y % 100 ≤ 68 then 2000 + y % 100 else 1900 + y % 100) % 100 =
          y % 100 := by
        have h100 := Nat.mod_lt y (show 0 < 100 by norm_num)
        split_ifs <;> omega
      simp only [strftimeSlash, slashDate]
      rw [hmod]
    · rw [show convert_date_format ⟨dottedYYYY d m y⟩ =
        (match strptime2 (dottedYYYY d m y) with
          | some dt => (⟨strftimeSlash dt⟩ : String)
          | none =>
            match strptime4 (dottedYYYY d m y) with
            | some dt => (⟨strftimeSlash dt⟩ : String)
            | none => ⟨dottedYYYY d m y⟩) from rfl]
      rw [strptime2_dottedYYYY y m d]
      show (match strptime4 (dottedYYYY d m y) with
        | some dt => (⟨strftimeSlash dt⟩ : String)
        | none => (⟨dottedYYYY d m y⟩ : String)) = ⟨slashDate d m y⟩
      rw [strptime4_dottedYYYY y m d h]
      rfl
  · intro s h1 h2
    simp only [convert_date_format, h1, h2]

theorem c5_witness :
    convert_date_format "19.02.26" = "19/02/26" ∧
      convert_date_format "19.02.2026" = "19/02/26" ∧
      convert_date_format "19/02/26" = "19/02/26" := by
  have h1 := c5_convert_date_format.1 2026 2 19 (by decide)
  refine ⟨?_, ?_, c5_convert_date_format.2 "19/02/26" (by decide) (by decide)⟩
  · have e1 : ("19.02.26" : String) = ⟨dottedYY 19 2 2026⟩ := by decide
    have e2 : ("19/02/26" : String) = ⟨slashDate 19 2 2026⟩ := by decide
    rw [e1, e2]
    exact h1.1
  · have e1 : ("19.02.2026" : String) = ⟨dottedYYYY 19 2 2026⟩ := by decide
    have e2 : ("19/02/26" : String) = ⟨slashDate 19 2 2026⟩ := by decide
    rw [e1, e2]
    exact h1.2

theorem c4_witness :
    (germanNumberShape "1.234,56" = true) ∧
      convert_german_to_american "1.234,56" = parseFloat (specCleaned "1.234,56") ∧
      (convert_german_to_american "1.234,56").isSome = true :=
  ⟨by decide, (c4_german_number.1 "1.234,56" (by decide)).1,
    (c4_german_number.1 "1.234,56" (by decide)).2⟩

theorem isPrefixB_exists : ∀ (p l : List Char), isPrefixB p l = true → ∃ t, l = p ++ t := by
  intro p
  induction p with
  | nil => exact fun l _ => ⟨l, rfl⟩
  | cons a as ih =>
    intro l h
    cases l with
    | nil => simp [isPrefixB] at h
    | cons b bs =>
      simp only [isPrefixB, Bool.and_eq_true, beq_iff_eq] at h
      obtain ⟨t, ht⟩ := ih bs h.2
      exact ⟨t, by rw [h.1, ht]; rfl⟩

theorem lazyGroup_sound : ∀ (rest acc g : List Char), lazyGroup acc rest = some g →
    ∃ mid rest2, rest = mid ++ rest2 ∧ g = acc.reverse ++ mid ∧ (∀ c ∈ mid, c ≠ '\n') ∧
      (rest2 = [] ∨ rest2 = ['\n'] ∨ ∃ r3, rest2 = ',' :: r3) := by
  intro rest
  induction rest with
  | nil =>
    intro acc g h
    rw [lazyGroup, if_pos (show commaOrEnd [] = true from rfl)] at h
    exact ⟨[], [], by simp, by simpa using (Option.some.inj h).symm, by simp, Or.inl rfl⟩
  | cons c r2 ih =>
    intro acc g h
    rw [lazyGroup] at h
    by_cases hco : commaOrEnd (c :: r2) = true
    · rw [if_pos hco] at h
      refine ⟨[], c :: r2, by simp, by simpa using (Option.some.inj h).symm, by simp, ?_⟩
      cases r2 with
      | nil =>
        simp only [commaOrEnd, Bool.or_eq_true, beq_iff_eq] at hco
        rcases hco with rfl | rfl
        · exact Or.inr (Or.inr ⟨[], rfl⟩)
        · exact Or.inr (Or.inl rfl)
      | cons x xs =>
        simp only [commaOrEnd, beq_iff_eq] at hco
        exact Or.inr (Or.inr ⟨x :: xs, by rw [hco]⟩)
    · rw [if_neg hco] at h
      by_cases hnl : c = '\n'
      · rw [if_pos hnl] at h
        exact absurd h (by simp)
      · rw [if_neg hnl] at h
        obtain ⟨mid, rest2, h1, h2, h3, h4⟩ := ih (c :: acc) g h
        refine ⟨c :: mid, rest2, by rw [h1]; rfl, ?_, ?_, h4⟩
        · rw [h2]
          simp
        · intro d hd
          rcases List.mem_cons.mp hd with rfl | hd2
          · exact hnl
          · exact h3 d hd2

theorem lazyGroupStart_sound (t g : List Char) (h : lazyGroupStart t = some g) :
    ∃ rest2, t = g ++ rest2 ∧ g ≠ [] ∧ (∀ c ∈ g, c ≠ '\n') ∧
      (rest2 = [] ∨ rest2 = ['\n'] ∨ ∃ r3, rest2 = ',' :: r3) := by
  cases t with
  | nil => simp [lazyGroupStart] at h
  | cons c r2 =>
    rw [lazyGroupStart] at h
    by_cases hnl : c = '\n'
    · rw [if_pos hnl] at h
      exact absurd h (by simp)
    · rw [if_neg hnl] at h
      obtain ⟨mid, rest2, h1, h2, h3, h4⟩ := lazyGroup_sound r2 [c] g h
      refine ⟨rest2, ?_, ?_, ?_, h4⟩
      · rw [h1, h2]
        rfl
      · rw [h2]
        simp
      · intro d hd
        rw [h2] at hd
        rcases List.mem_cons.mp (by simpa using hd) with rfl | hd2
        · exact hnl
        · exact h3 d hd2

theorem wsThenGroup_sound : ∀ (k : ℕ) (t g : List Char), wsThenGroup k t = some g →
    ∃ j, 1 ≤ j ∧ j ≤ k ∧ lazyGroupStart (t.drop j) = some g := by
  intro k
  induction k with
  | zero => intro t g h; simp [wsThenGroup] at h
  | succ k2 ih =>
    intro t g h
    rw [wsThenGroup] at h
    cases hl : lazyGroupStart (t.drop (k2 + 1)) with
    | some g0 =>
      rw [hl] at h
      exact ⟨k2 + 1, by omega, le_refl _, by rw [hl, Option.some.inj h]⟩
    | none =>
      rw [hl] at h
      obtain ⟨j, hj1, hj2, hj3⟩ := ih t g h
      exact ⟨j, hj1, by omega, hj3⟩

theorem take_all_of_le_takeWhile (p : Char → Bool) : ∀ (t : List Char) (j : ℕ),
    j ≤ (t.takeWhile p).length → ∀ c ∈ t.take j, p c = true := by
  intro t
  induction t with
  | nil => intro j _ c hc; simp at hc
  | cons a rest ih =>
    intro j hj c hc
    by_cases hp : p a = true
    · rw [List.takeWhile_cons_of_pos hp] at hj
      cases j with
      | zero => simp at hc
      | succ j2 =>
        simp only [List.take_succ_cons, List.mem_cons] at hc
        rcases hc with rfl | hc2
        · exact hp
        · exact ih j2 (by simpa using hj) c hc2
    · rw [List.takeWhile_cons_of_neg hp] at hj
      have : j = 0 := by simpa using hj
      subst this
      simp at hc

theorem matchMarkerAt_sound (l g : List Char) (h : matchMarkerAt l = some g) :
    ∃ w rest2, l = einkaufMarker ++ (w ++ (g ++ rest2)) ∧ w ≠ [] ∧
      (∀ c ∈ w, isSpaceC c = true) ∧ g ≠ [] ∧ (∀ c ∈ g, c ≠ '\n') ∧
      (rest2 = [] ∨ rest2 = ['\n'] ∨ ∃ r3, rest2 = ',' :: r3) := by
  rw [matchMarkerAt] at h
  by_cases hp : isPrefixB einkaufMarker l = true
  · rw [if_pos hp] at h
    obtain ⟨t, ht⟩ := isPrefixB_exists einkaufMarker l hp
    have hdrop : l.drop einkaufMarker.length = t := by rw [ht, List.drop_left]
    rw [hdrop] at h
    obtain ⟨j, hj1, hj2, hj3⟩ := wsThenGroup_sound _ t g h
    obtain ⟨rest2, he, hg1, hg2, hg3⟩ := lazyGroupStart_sound (t.drop j) g hj3
    refine ⟨t.take j, rest2, ?_, ?_, ?_, hg1, hg2, hg3⟩
    · rw [ht]
      congr 1
      rw [← he, List.take_append_drop]
    · intro htake
      have hlen := congrArg List.length htake
      rw [List.length_take] at hlen
      simp only [List.length_nil] at hlen
      have htl : t.length = 0 ∨ j = 0 := by omega
      rcases htl with htl | htl
      · have : t = [] := List.eq_nil_of_length_eq_zero htl
        subst this
        simp at he
        exact hg1 he.1
      · omega
    · exact take_all_of_le_takeWhile isSpaceC t j hj2
  · rw [if_neg hp] at h
    exact absurd h (by simp)

theorem paypalSearch_sound : ∀ (l g : List Char), paypalSearch l = some g →
    ∃ pre w rest2, l = pre ++ (einkaufMarker ++ (w ++ (g ++ rest2))) ∧ w ≠ [] ∧
      (∀ c ∈ w, isSpaceC c = true) ∧ g ≠ [] ∧ (∀ c ∈ g, c ≠ '\n') ∧
      (rest2 = [] ∨ rest2 = ['\n'] ∨ ∃ r3, rest2 = ',' :: r3) := by
  intro l
  induction l with
  | nil => intro g h; simp [paypalSearch] at h
  | cons c rest ih =>
    intro g h
    rw [paypalSearch] at h
    cases hm : matchMarkerAt (c :: rest) with
    | some g0 =>
      rw [hm] at h
      have hg : g0 = g := Option.some.inj h
      subst hg
      obtain ⟨w, rest2, h1, h2, h3, h4, h5, h6⟩ := matchMarkerAt_sound (c :: rest) g0 hm
      exact ⟨[], w, rest2, by rw [← h1]; rfl, h2, h3, h4, h5, h6⟩
    | none =>
      rw [hm] at h
      obtain ⟨pre, w, rest2, h1, h2, h3, h4, h5, h6⟩ := ih g h
      exact ⟨c :: pre, w, rest2, by rw [List.cons_append, ← h1], h2, h3, h4, h5, h6⟩

/-- C8: when the stripped payee starts with the PayPal prefix and a store name
can be extracted, `normalize_payee` returns the trimmed store name; the
searched group really is marker-adjacent, non-empty, and comma/end-terminated.
In every other case (prefix absent, empty memo, or marker not found) the payee
passes through unchanged and the extractor returns the empty string. -/
theorem c8_normalize_payee (payee memo : String) :
    (isPrefixB paypalPrefixVal.data (stripC payee.data) = true →
      extract_paypal_store memo ≠ "" →
      normalize_payee payee memo = extract_paypal_store memo) ∧
    (isPrefixB paypalPrefixVal.data (stripC payee.data) = false →
      normalize_payee payee memo = payee) ∧
    (extract_paypal_store memo = "" → normalize_payee payee memo = payee) ∧
    (memo = "" → extract_paypal_store memo = "") ∧
    (paypalSearch memo.data = none → extract_paypal_store memo = "") ∧
    (∀ g, paypalSearch memo.data = some g →
      extract_paypal_store memo = ⟨stripC g⟩ ∧
        ∃ pre w rest2, memo.data = pre ++ (einkaufMarker ++ (w ++ (g ++ rest2))) ∧ w ≠ [] ∧
          (∀ c ∈ w, isSpaceC c = true) ∧ g ≠ [] ∧ (∀ c ∈ g, c ≠ '\n') ∧
          (rest2 = [] ∨ rest2 = ['\n'] ∨ ∃ r3, rest2 = ',' :: r3)) := by
  refine ⟨?_, ?_, ?_, ?_, ?_, ?_⟩
  · intro hp hne
    rw [normalize_payee, if_pos hp, if_pos hne]
  · intro hp
    rw [normalize_payee, if_neg (by rw [hp]; simp)]
  · intro hemp
    rw [normalize_payee]
    by_cases hp : isPrefixB paypalPrefixVal.data (stripC payee.data) = true
    · rw [if_pos hp, if_neg (by rw [hemp]; simp)]
    · rw [if_neg hp]
  · intro hm
    rw [extract_paypal_store, if_pos hm]
  · intro hs
    rw [extract_paypal_store]
    by_cases hm : memo = ""
    · rw [if_pos hm]
    · rw [if_neg hm, hs]
  · intro g hs
    have hm : ¬ memo = "" := by
      intro hm0
      rw [hm0] at hs
      exact absurd hs (by simp [paypalSearch])
    refine ⟨by rw [extract_paypal_store, if_neg hm, hs], ?_⟩
    exact paypalSearch_sound memo.data g hs

theorem c8_witness :
    isPrefixB paypalPrefixVal.data
        (stripC ("PayPal Europe S.a.r.l. et Cie, S.C.A." : String).data) = true ∧
      extract_paypal_store "Ihr Einkauf bei Laden, danke" ≠ "" ∧
      normalize_payee "PayPal Europe S.a.r.l. et Cie, S.C.A." "Ihr Einkauf bei Laden, danke" =
        extract_paypal_store "Ihr Einkauf bei Laden, danke" :=
  ⟨by decide, by decide,
    (c8_normalize_payee "PayPal Europe S.a.r.l. et Cie, S.C.A."
      "Ihr Einkauf bei Laden, danke").1 (by decide) (by decide)⟩

/-! ## Concrete behavioural checks -/

example : convert_german_to_american "1.234,56" = some (mkRat 123456 100) := by decide
example : convert_german_to_american "-0,5" = some (-(mkRat 5 10)) := by decide
example : convert_german_to_american "not a number" = none := by decide
example : convert_date_format "19.02.26" = "19/02/26" := by decide
example : convert_date_format "19.02.2026" = "19/02/26" := by decide
example : convert_date_format "19/02/26" = "19/02/26" := by decide
example : convert_date_format "29.02.2023" = "29.02.2023" := by decide
example : convert_date_format "1.2.99" = "01/02/99" := by decide
example : extract_paypal_store "foo, Ihr Einkauf bei Store Name, bar" = "Store Name" := by decide
example : extract_paypal_store "" = "" := by decide
example : extract_paypal_store "no marker here" = "" := by decide
example : extract_paypal_store "Ihr Einkauf bei X" = "X" := by decide
example : normalize_payee "PayPal Europe S.a.r.l. et Cie" "Ihr Einkauf bei Shop, danke" = "Shop" := by
  decide
example : normalize_payee "Someone" "Ihr Einkauf bei Shop" = "Someone" := by decide
example : (build_row "d" "p" "m" (-(mkRat 125 10))).Outflow = "12.50" := by decide
example : (build_row "d" "p" "m" (mkRat 125 10)).Inflow = "12.50" := by decide
example : (build_row "d" "p" "m" 0).Outflow = "" ∧ (build_row "d" "p" "m" 0).Inflow = "" := by decide
example : format_amount (mkRat 5 1000) = "0.00" := by decide
example : format_amount (mkRat 15 1000) = "0.02" := by decide
example :
    parseCsvLine ';' "\"Buchungsdatum\";\"Wertstellung\";x".data =
      ["Buchungsdatum", "Wertstellung", "x"] := by decide
example :
    detect_account_type ["junk", "Buchungsdatum;Wertstellung;Beschreibung;Betrag (EUR)"] =
      Except.ok AccountType.visa := rfl
example : detect_account_type ["no header"] =
    Except.error "Unable to detect account type: header row not found." := rfl
example :
    convert AccountType.girokonto (some ["Wertstellung"]) [] =
      ([YNAB_FIELDNAMES],
        some
          "Missing required columns: Zahlungspflichtige*r, Zahlungsempfänger*in, Verwendungszweck, Betrag (€)") := by
  decide
example :
    convertRows AccountType.girokonto
        [[("Wertstellung", "19.02.26"), ("Zahlungsempfänger*in", "A  B"), ("Betrag (€)", "-1,00")],
          [("Betrag (€)", "kaputt")]] =
      [build_row "19/02/26" "A B" "" (-(mkRat 100 100))] := by decide
example : germanNumberShape "1.234,56" = true := by decide
example : germanNumberShape "-0,5" = true := by decide
example : germanNumberShape "123,56" = true := by decide
example : germanNumberShape "1234,56" = false := by decide
example : germanNumberShape "1.23,4" = false := by decide
example : germanNumberShape "12." = false := by decide

end Ynabifier
